import Mathlib

/-!
Verification development for the EasyConduit Telegram bot
(`src/bot/main.py`, single-file Python program).

The Python code is shallowly embedded:

* Python `float` metric values are modelled by `ℚ` (all claim-relevant
  computations on these values are exact decimal arithmetic);
* Python strings are modelled by `List Char` where the code inspects their
  characters (config files, metrics exposition lines, API error texts,
  callback data), and by Lean `String` where they are only constructed and
  compared wholesale (UI texts, acknowledgments);
* the Telegram API is modelled by oracles (`ApiRes`, environment records)
  supplying the outcome of each outbound call, and by effect traces
  listing the calls the code issues;
* a raised-and-propagated Python exception is modelled by an explicit
  crash flag / `Option` result.

Every definition is translated from the source; doc comments name the
source function and line range it embeds.
-/

set_option maxRecDepth 8000

namespace EasyConduit

/-- Characters of a Lean string literal, used to write `List Char` constants. -/
def chars (s : String) : List Char := s.toList

/-! ### Python string primitives (`str.strip`, `str.split`) -/

/-- Whitespace as recognised by `Char.isWhitespace` (space, tab, CR, LF).
Models the whitespace class Python's `str.strip()`/`str.split()` use
(Python additionally strips `\f`/`\v`, which never occur in the inputs here). -/
def isPySpace (c : Char) : Bool := c.isWhitespace

/-- Drop trailing characters satisfying `isPySpace`. -/
def dropTrailing : List Char → List Char
  | [] => []
  | c :: t =>
    match dropTrailing t with
    | [] => if isPySpace c then [] else [c]
    | r => c :: r

/-- Python `str.strip()`: drop leading and trailing whitespace. -/
def stripChars (s : List Char) : List Char := dropTrailing (s.dropWhile isPySpace)

/-- Python `line.split("=", 1)` restricted to lines that contain `'='`:
the part before the first `'='` and the part after it. -/
def splitAtEqKey (s : List Char) : List Char := s.takeWhile (· ≠ '=')

/-- The part after the first `'='` (meaningful when `'=' ∈ s`). -/
def splitAtEqVal (s : List Char) : List Char := (s.dropWhile (· ≠ '=')).tail

/-! ### Python numeric literal parsing (`int(v)`, `float(v)`)

Models CPython's `int(str)` and `float(str)` on already-stripped ASCII
strings: optional sign, decimal digits with single underscores strictly
between digits, and for `float` an optional fraction and exponent.
`inf`/`nan` and non-ASCII digits are not modelled (they cannot arise from
the integer/decimal values this program writes, and `inf`/`nan` have no
image in `ℚ`); values are exact rationals (no binary rounding). -/

/-- Digit-run validity: `expectDigit = true` means the next character must
be a digit (start of string, or right after an underscore). Accepts
non-empty digit strings with single underscores between digits. -/
def digitsOk : Bool → List Char → Bool
  | expectD, [] => !expectD
  | expectD, c :: rest =>
    if c.isDigit then digitsOk false rest
    else if c = '_' then !expectD && digitsOk true rest
    else false

/-- Numeric value of a digit run, skipping underscores. -/
def natVal (cs : List Char) : Int :=
  cs.foldl (fun a c => if c = '_' then a else a * 10 + (Int.ofNat (c.toNat - '0'.toNat))) 0

/-- Python `int(v)` on a string: strip, optional sign, digit run. -/
def pyInt (cs : List Char) : Option Int :=
  match stripChars cs with
  | '+' :: rest => if digitsOk true rest then some (natVal rest) else none
  | '-' :: rest => if digitsOk true rest then some (-(natVal rest)) else none
  | s => if digitsOk true s then some (natVal s) else none

/-- Powers of ten over `Int`. -/
def pow10 : Nat → Int
  | 0 => 1
  | n + 1 => 10 * pow10 n

/-- Powers of ten over `Nat` (denominators). -/
def pow10N : Nat → Nat
  | 0 => 1
  | n + 1 => 10 * pow10N n

/-- Number of digits in a digit run (underscores excluded). -/
def countDigits (cs : List Char) : Nat := cs.countP (fun c => c ≠ '_')

/-- Mantissa of a float literal: `D`, `D.`, `D.D` or `.D` with `D` a digit
run; returns the digits' integer value scaled past the point, together
with the number of fractional digits (value `= m / 10 ^ f`). -/
def pyMant (cs : List Char) : Option (Int × Nat) :=
  let ip := cs.takeWhile (· ≠ '.')
  let fp := (cs.dropWhile (· ≠ '.')).tail
  if cs.any (· = '.') then
    if fp.any (· = '.') then none
    else
      match ip, fp with
      | [], [] => none
      | [], f => if digitsOk true f then some (natVal f, countDigits f) else none
      | i, [] => if digitsOk true i then some (natVal i, 0) else none
      | i, f =>
        if digitsOk true i && digitsOk true f then
          some (natVal i * pow10 (countDigits f) + natVal f, countDigits f)
        else none
  else if digitsOk true cs then some (natVal cs, 0) else none

/-- Exponent part of a float literal: optional sign, digit run. -/
def pyExpInt (cs : List Char) : Option Int :=
  match cs with
  | '+' :: rest => if digitsOk true rest then some (natVal rest) else none
  | '-' :: rest => if digitsOk true rest then some (-(natVal rest)) else none
  | s => if digitsOk true s then some (natVal s) else none

/-- Python `float(v)` on a string: strip, optional sign, mantissa,
optional `e`/`E` exponent; exact rational value
`sign * m * 10 ^ e / 10 ^ f`. -/
def pyFloat (cs : List Char) : Option ℚ :=
  let s := stripChars cs
  let sg : Int := match s with
    | '-' :: _ => -1
    | _ => 1
  let s1 : List Char := match s with
    | '+' :: r => r
    | '-' :: r => r
    | t => t
  let isE : Char → Bool := fun c => c = 'e' || c = 'E'
  let mant := s1.takeWhile (fun c => !(isE c))
  let rest := (s1.dropWhile (fun c => !(isE c))).tail
  let expv : Option Int := if s1.any (fun c => isE c) then pyExpInt rest else some 0
  match pyMant mant, expv with
  | some (m, f), some e =>
    if 0 ≤ e then some (mkRat (sg * m * pow10 e.toNat) (pow10N f))
    else some (mkRat (sg * m) (pow10N (f + (-e).toNat)))
  | _, _ => none

/-! ### Config file (`load_conduit_env`, `set_conduit_param`)

A config file is modelled as `Option (List (List Char))`: `none` when the
file does not exist (`os.path.isfile` false), otherwise its list of lines
(each line without its terminating newline). -/

/-- One line of a key=value file, as both `load_conduit_env`
(main.py:856-862) and `set_conduit_param` (main.py:1145-1150) read it:
strip the line; skip it when empty, without `'='`, or starting with `'#'`;
otherwise split at the first `'='` and strip key and value. -/
def parseLine (line : List Char) : Option (List Char × List Char) :=
  match stripChars line with
  | [] => none
  | c :: rest =>
    if c = '#' ∨ '=' ∉ (c :: rest) then none
    else some (stripChars (splitAtEqKey (c :: rest)), stripChars (splitAtEqVal (c :: rest)))

/-- The parseable `(key, value)` entries of a file, in order. -/
def parsePairs (lines : List (List Char)) : List (List Char × List Char) :=
  lines.filterMap parseLine

/-- Python `d[k] = v` on an insertion-ordered dict represented as an
association list with unique keys: update in place if present, else append. -/
def dictInsert (d : List (List Char × List Char)) (k v : List Char) :
    List (List Char × List Char) :=
  if d.any (fun p => p.1 = k) then d.map (fun p => if p.1 = k then (k, v) else p)
  else d ++ [(k, v)]

/-- Build a Python dict from a sequence of assignments (last value wins,
insertion order kept). -/
def buildDict (ps : List (List Char × List Char)) : List (List Char × List Char) :=
  ps.foldl (fun d p => dictInsert d p.1 p.2) []

/-- Last-wins lookup over a pair sequence (the value a reader of the file
obtains for a key, since every reader in the source overwrites on each
parseable occurrence). -/
def lookupD : List (List Char × List Char) → List Char → Option (List Char)
  | [], _ => none
  | p :: ps, k =>
    match lookupD ps k with
    | some v => some v
    | none => if p.1 = k then some p.2 else none

/-- The key-to-value mapping a file denotes, as the program reads it. -/
def fileLookup (lines : List (List Char)) (k : List Char) : Option (List Char) :=
  lookupD (parsePairs lines) k

/-- `set_conduit_param(env_path, key, value)` (main.py:1141-1154): read the
file into a dict (`{}` when missing), set `d[key] = value`, rewrite the
file as `k=v` lines. Returns the new file's lines. -/
def set_conduit_param (file : Option (List (List Char))) (key value : List Char) :
    List (List Char) :=
  let d := buildDict (parsePairs (file.getD []))
  (dictInsert d key value).map (fun p => p.1 ++ '=' :: p.2)

/-- One iteration of `load_conduit_env`'s line loop (main.py:856-872). -/
def loadStep (acc : Int × ℚ) (line : List Char) : Int × ℚ :=
  match parseLine line with
  | none => acc
  | some (k, v) =>
    if k = chars "MAX_CLIENTS" then
      match pyInt v with
      | some n => (n, acc.2)
      | none => acc
    else if k = chars "BANDWIDTH" then
      match pyFloat v with
      | some q => (acc.1, q)
      | none => acc
    else acc

/-- `load_conduit_env(path)` (main.py:851-873): defaults `(50, 10.0)`;
for each parseable line, a `MAX_CLIENTS` value parseable as `int`
overwrites the first component, a `BANDWIDTH` value parseable as `float`
overwrites the second; malformed values are ignored (`except: pass`). -/
def load_conduit_env (file : Option (List (List Char))) : Int × ℚ :=
  match file with
  | none => (50, 10)
  | some lines => lines.foldl loadStep (50, 10)

/-- The effect of one line on the `MAX_CLIENTS` component alone. -/
def mcStep (a : Int) (line : List Char) : Int :=
  match parseLine line with
  | none => a
  | some (k, v) =>
    if k = chars "MAX_CLIENTS" then
      match pyInt v with
      | some n => n
      | none => a
    else a

/-- The effect of one line on the `BANDWIDTH` component alone. -/
def bwStep (b : ℚ) (line : List Char) : ℚ :=
  match parseLine line with
  | none => b
  | some (k, v) =>
    if k = chars "BANDWIDTH" then
      match pyFloat v with
      | some q => q
      | none => b
    else b

/-- The `MAX_CLIENTS` component of `load_conduit_env` in isolation:
only `MAX_CLIENTS` entries with `int`-parseable values affect it. -/
def mcOf (lines : List (List Char)) : Int := lines.foldl mcStep 50

/-- The `BANDWIDTH` component of `load_conduit_env` in isolation. -/
def bwOf (lines : List (List Char)) : ℚ := lines.foldl bwStep 10

/-- Does a line contribute a parseable `MAX_CLIENTS` entry? -/
def mcParses (line : List Char) : Bool :=
  match parseLine line with
  | some (k, v) => k = chars "MAX_CLIENTS" && (pyInt v).isSome
  | none => false

/-- Does a line contribute a parseable `BANDWIDTH` entry? -/
def bwParses (line : List Char) : Bool :=
  match parseLine line with
  | some (k, v) => k = chars "BANDWIDTH" && (pyFloat v).isSome
  | none => false

/-! ### Metrics samples (`fetch_metrics`, main.py:245-277)

`fetch_metrics` returns a Python dict whose keys can only be the eight
whitelisted metric names; the dict is modelled as a record of eight
optional rationals, the empty dict being the all-`none` record. -/

/-- The dict `fetch_metrics` builds: one optional value per whitelisted
metric name. -/
structure Metrics where
  connected : Option ℚ := none
  connecting : Option ℚ := none
  bytesUp : Option ℚ := none
  bytesDown : Option ℚ := none
  uptime : Option ℚ := none
  isLive : Option ℚ := none
  maxClients : Option ℚ := none
  bwLimit : Option ℚ := none
deriving DecidableEq

/-- The empty dict (`{}`), which `fetch_metrics` returns on a network
failure. -/
def emptyMetrics : Metrics := {}

/-- Python truthiness of the metrics dict (`if metrics:`): false iff empty. -/
def Metrics.nonempty (m : Metrics) : Bool :=
  m.connected.isSome || m.connecting.isSome || m.bytesUp.isSome || m.bytesDown.isSome ||
    m.uptime.isSome || m.isLive.isSome || m.maxClients.isSome || m.bwLimit.isSome

/-- The `wanted` whitelist of metric names (main.py:258-267). -/
def wantedNames : List (List Char) :=
  [chars "conduit_connected_clients", chars "conduit_connecting_clients",
   chars "conduit_bytes_uploaded", chars "conduit_bytes_downloaded",
   chars "conduit_uptime_seconds", chars "conduit_is_live",
   chars "conduit_max_clients", chars "conduit_bandwidth_limit_bytes_per_second"]

/-- `values[name] = float(...)` for a whitelisted name. -/
def setMetric (m : Metrics) (name : List Char) (q : ℚ) : Metrics :=
  if name = chars "conduit_connected_clients" then { m with connected := some q }
  else if name = chars "conduit_connecting_clients" then { m with connecting := some q }
  else if name = chars "conduit_bytes_uploaded" then { m with bytesUp := some q }
  else if name = chars "conduit_bytes_downloaded" then { m with bytesDown := some q }
  else if name = chars "conduit_uptime_seconds" then { m with uptime := some q }
  else if name = chars "conduit_is_live" then { m with isLive := some q }
  else if name = chars "conduit_max_clients" then { m with maxClients := some q }
  else if name = chars "conduit_bandwidth_limit_bytes_per_second" then { m with bwLimit := some q }
  else m

/-- Python `line.split(None, 1)` restricted to producing two tokens:
`none` models the `ValueError` that unpacking `name, val = ...` raises
when the line yields fewer than two whitespace-separated tokens. -/
def splitWsOnce (s : List Char) : Option (List Char × List Char) :=
  let s1 := s.dropWhile isPySpace
  let name := s1.takeWhile (fun c => !(isPySpace c))
  let rest := (s1.dropWhile (fun c => !(isPySpace c))).dropWhile isPySpace
  if name.isEmpty || rest.isEmpty then none else some (name, rest)

/-- `fetch_metrics(metrics_url)` (main.py:245-277). The argument models
the network: `none` is a fetch failure (the function returns the empty
dict), `some lines` the response body split into lines. The result is
`none` when parsing raises (a line containing `' '` but fewer than two
whitespace-separated tokens makes the tuple unpacking raise `ValueError`,
which `fetch_metrics` does not catch), else `some` dict. Lines starting
with `'#'` or without a space character are skipped; whitelisted names
with float-parseable values are recorded; malformed values are skipped. -/
def fetch_metrics (net : Option (List (List Char))) : Option Metrics :=
  match net with
  | none => some emptyMetrics
  | some lines =>
    lines.foldlM (fun (m : Metrics) line =>
      if line.head? = some '#' || !(line.contains ' ') then some m
      else
        match splitWsOnce line with
        | none => none
        | some (name, val) =>
          if name ∈ wantedNames then
            match pyFloat val with
            | some q => some (setMetric m name q)
            | none => some m
          else some m) emptyMetrics

/-! ### Lifetime traffic aggregator (`update_lifetime_traffic`, main.py:642-657) -/

/-- The four counter-state keys `last_seen_bytes_*`, `lifetime_bytes_*`
(absent keys read as `0.0`, so plain rationals suffice). -/
structure CounterState where
  lastUp : ℚ := 0
  lastDn : ℚ := 0
  lifeUp : ℚ := 0
  lifeDn : ℚ := 0
deriving DecidableEq

/-- `update_lifetime_traffic(state, metrics)` with the sample's two byte
counters (`metrics.get("conduit_bytes_uploaded", 0.0)` etc. — the `getD 0`
is applied by the caller model): per direction, credit the delta only when
the counter did not decrease; always record the counter as last seen. -/
def update_lifetime_traffic (st : CounterState) (curUp curDn : ℚ) : CounterState :=
  { lastUp := curUp
    lastDn := curDn
    lifeUp := if curUp ≥ st.lastUp then st.lifeUp + (curUp - st.lastUp) else st.lifeUp
    lifeDn := if curDn ≥ st.lastDn then st.lifeDn + (curDn - st.lastDn) else st.lifeDn }

/-! ### History ring buffers (main.py:660-768) -/

/-- `_HISTORY_MAX` (main.py:661). -/
def HISTORY_MAX : Nat := 40

/-- `append_metrics_history(state, metrics)` (main.py:750-757): append the
sample's `(uploaded, downloaded)` pair; when the length exceeds 40, keep
the last 40 entries (`traffic[-_HISTORY_MAX:]`). -/
def append_metrics_history (h : List (ℚ × ℚ)) (up dn : ℚ) : List (ℚ × ℚ) :=
  let t := h ++ [(up, dn)]
  if t.length > HISTORY_MAX then t.drop (t.length - HISTORY_MAX) else t

/-- `append_lifetime_history(state)` (main.py:760-768): append the current
lifetime totals; same 40-entry bound. -/
def append_lifetime_history (h : List (ℚ × ℚ)) (c : CounterState) : List (ℚ × ℚ) :=
  let t := h ++ [(c.lifeUp, c.lifeDn)]
  if t.length > HISTORY_MAX then t.drop (t.length - HISTORY_MAX) else t

/-! ### Daily usage accumulator (`update_client_seconds_today`, main.py:741-747) -/

/-- `client_seconds_today` plus the `last_day_utc` marker (`none` when the
key is absent). -/
structure DailyAcc where
  lastDay : Option String := none
  value : ℚ := 0
deriving DecidableEq

/-- `update_client_seconds_today(state, connected, interval_sec)`
(main.py:741-747): reset value and marker when the stored UTC date differs
from `today`, then add `connected * interval_sec`. -/
def update_client_seconds_today (st : DailyAcc) (connected : Int) (today : String)
    (intervalSec : ℚ) : DailyAcc :=
  let st1 := if st.lastDay ≠ some today then { lastDay := some today, value := 0 } else st
  { st1 with value := st1.value + (connected : ℚ) * intervalSec }

/-! ### Chat UI reconciler (main.py:982-1139)

Outbound Telegram calls are modelled by an oracle result per call
(`ApiRes`): `ok id` is a successful call whose response carries message id
`id`; `err msg` is the `RuntimeError` the API wrapper raises, with `msg`
the exception text the handlers match on. State effects are captured by
the returned triad and by counts of replacement messages sent. -/

/-- Result of one outbound Telegram API call; an error carries the
exception text (as characters) the handlers pattern-match on. -/
inductive ApiRes where
  | ok (msgId : Nat)
  | err (msg : List Char)
deriving DecidableEq

/-- The three-way classification both `update_dashboard_for_chat`
(main.py:1076-1100) and `edit_command_desk` (main.py:1126-1138) apply to
an edit failure's lowercased text. -/
inductive EditOutcome where
  | unchanged
  | targetMissing
  | other
deriving DecidableEq

/-- ASCII lowering of one character; models Python `str.lower()` on the
ASCII texts the Telegram API produces. -/
def lowerChar (c : Char) : Char :=
  if c.toNat ≥ 65 && c.toNat ≤ 90 then Char.ofNat (c.toNat + 32) else c

/-- Does `s` start with `pat`? (Python `str.startswith`.) -/
def startsWithSeq : List Char → List Char → Bool
  | _, [] => true
  | [], _ :: _ => false
  | c :: s, p :: ps => c = p && startsWithSeq s ps

/-- Python `pat in s` for a non-empty pattern. -/
def containsSeq (s pat : List Char) : Bool :=
  match s with
  | [] => pat.isEmpty
  | _ :: t => startsWithSeq s pat || containsSeq t pat

/-- `err = str(e).lower()` followed by the pattern tests, in source order:
`"message is not modified"` wins over the three target-missing patterns
(`"message to edit not found"`, `"message can't be edited"`,
`"message not found"`); everything else is `other`. -/
def classify_edit_error (msg : List Char) : EditOutcome :=
  let e := msg.map lowerChar
  if containsSeq e (chars "message is not modified") then .unchanged
  else if containsSeq e (chars "message to edit not found")
      || containsSeq e (chars "message can't be edited")
      || containsSeq e (chars "message not found") then .targetMissing
  else .other

/-- Python truthiness of a stored message id (`if not dash_id`): unset
(`None`, i.e. absent key) and `0` are both falsy. -/
def py_truthy : Option Nat → Bool
  | none => false
  | some n => n ≠ 0

/-- The per-chat triad of stored message ids
(`dashboard_message_ids[chat]`, `status_message_ids[chat]`,
`command_message_ids[chat]`; `none` when the key is absent). -/
structure TriadIds where
  dash : Option Nat := none
  status : Option Nat := none
  cmd : Option Nat := none
deriving DecidableEq

/-- The edit-one-slot pattern shared verbatim by the dashboard edit
(main.py:1074-1086), the status edit (main.py:1088-1100) and the
command-desk edit (main.py:1124-1138): try the in-place edit; on failure
classify the error; on `targetMissing` issue one replacement send and, if
it succeeds, record its message id (a failed send is swallowed and leaves
the stored id unchanged); on `unchanged`/`other` do nothing further.
Returns the stored id afterwards and the number of replacement sends
issued (0 or 1). -/
def edit_slot (stored : Nat) (editRes sendRes : ApiRes) : Nat × Nat :=
  match editRes with
  | .ok _ => (stored, 0)
  | .err m =>
    match classify_edit_error m with
    | .unchanged => (stored, 0)
    | .other => (stored, 0)
    | .targetMissing =>
      match sendRes with
      | .ok nid => (nid, 1)
      | .err _ => (stored, 1)

/-- Oracle for the up to four outbound calls `update_dashboard_for_chat`
can make: edit dashboard media, replacement `send_photo`, edit status
text, replacement `send_message`. -/
structure DashEnv where
  editMediaRes : ApiRes
  sendPhotoRes : ApiRes
  editTextRes : ApiRes
  sendMsgRes : ApiRes
deriving DecidableEq

/-- `update_dashboard_for_chat(api, state, chat_id, status_text, image_bytes)`
(main.py:1057-1100): a no-op returning before any API call when the
dashboard or status id is falsy (periodic refresh never creates);
otherwise edit each of the two slots independently per `edit_slot`.
Returns the new triad and the replacement-send counts
(photo sends, status-message sends). -/
def update_dashboard_for_chat (t : TriadIds) (env : DashEnv) : TriadIds × Nat × Nat :=
  if !(py_truthy t.dash) || !(py_truthy t.status) then (t, 0, 0)
  else
    let d := edit_slot (t.dash.getD 0) env.editMediaRes env.sendPhotoRes
    let s := edit_slot (t.status.getD 0) env.editTextRes env.sendMsgRes
    ({ dash := some d.1, status := some s.1, cmd := t.cmd }, d.2, s.2)

/-- Oracle for the up to two outbound calls `edit_command_desk` can make. -/
structure CmdEnv where
  editTextRes : ApiRes
  sendMsgRes : ApiRes
deriving DecidableEq

/-- `edit_command_desk(api, state, chat_id, text, keyboard)`
(main.py:1103-1138): when the stored command id is falsy, send a new
command-desk message and record its id (a failed send returns without
recording); otherwise edit the slot per `edit_slot`. Returns the new
triad and the number of sends issued. -/
def edit_command_desk (t : TriadIds) (env : CmdEnv) : TriadIds × Nat :=
  if !(py_truthy t.cmd) then
    match env.sendMsgRes with
    | .ok nid => ({ t with cmd := some nid }, 1)
    | .err _ => (t, 1)
  else
    let c := edit_slot (t.cmd.getD 0) env.editTextRes env.sendMsgRes
    ({ t with cmd := some c.1 }, c.2)

/-- Oracle for the up to three creation sends of `ensure_chat_messages`. -/
structure EnsureEnv where
  sendPhotoRes : ApiRes
  sendStatusRes : ApiRes
  sendCmdRes : ApiRes
deriving DecidableEq

/-- `ensure_chat_messages(api, state, chat_id, status_text, image_bytes)`
(main.py:1009-1054): for each slot whose stored id is `None` (this path
tests `is None`, not truthiness), send the corresponding message and
record its id when the send succeeds (a failed send leaves the slot
unset). Returns the new triad and the number of sends issued. -/
def ensure_chat_messages (t : TriadIds) (env : EnsureEnv) : TriadIds × Nat :=
  let step : Option Nat → ApiRes → Option Nat × Nat := fun stored res =>
    match stored with
    | some i => (some i, 0)
    | none =>
      match res with
      | .ok nid => (some nid, 1)
      | .err _ => (none, 1)
  let d := step t.dash env.sendPhotoRes
  let s := step t.status env.sendStatusRes
  let c := step t.cmd env.sendCmdRes
  ({ dash := d.1, status := s.1, cmd := c.1 }, d.2 + s.2 + c.2)

/-- `delete_chat_ui_messages(api, state, chat_id)` (main.py:982-1006):
best-effort delete of each set id, then clear all three keys. Returns the
cleared triad and the number of delete calls issued. -/
def delete_chat_ui_messages (t : TriadIds) : TriadIds × Nat :=
  let n := (if t.dash.isSome then 1 else 0) + (if t.status.isSome then 1 else 0) +
    (if t.cmd.isSome then 1 else 0)
  ({ dash := none, status := none, cmd := none }, n)

/-! ### Status message (`build_status_message`, main.py:809-848)

Modelled by its semantic content: which metrics dict the caption's numbers
come from, the max-clients/bandwidth pair formatted into it, the Conduit
real-time line, and the service hint. The assembly of these into one
string (via `build_dashboard_caption`, `human_bytes`, …) is presentation
and carries no further claim-relevant information. -/

/-- Claim-relevant content of the status message. -/
structure StatusView where
  captionMetrics : Metrics
  captionMaxClients : Int
  captionBandwidth : ℚ
  conduitLine : String
  svcHint : String
deriving DecidableEq

/-- `build_status_message(metrics, max_clients, bandwidth_mbps,
conduit_svc_status, last_good_metrics, ...)`: when `metrics` is a dict
(even the empty one) the caption is built from it and the Conduit line is
LIVE/STOPPED by `conduit_is_live >= 0.5`; only when `metrics is None` does
the caption fall back to `last_good_metrics or {}` and the line read
`"unreachable (service may be down)"`. -/
def build_status_message (metrics : Option Metrics) (maxClients : Int) (bandwidth : ℚ)
    (svc : String) (lastGood : Option Metrics) : StatusView :=
  let hint := if svc = "inactive" then "inactive (stopped)"
    else if svc = "failed" then "failed (check logs)" else svc
  match metrics with
  | some m =>
    ⟨m, maxClients, bandwidth,
      if m.isLive.getD 0 ≥ mkRat 1 2 then "LIVE" else "STOPPED", hint⟩
  | none => ⟨lastGood.getD emptyMetrics, maxClients, bandwidth,
      "unreachable (service may be down)", hint⟩

/-! ### Bot state and the periodic refresh (main.py:1185-1270) -/

/-- Python truncation `int(x)` on a rational (toward zero). -/
def pyTrunc (q : ℚ) : Int := if q ≥ 0 then ⌊q⌋ else -⌊-q⌋

/-- The persisted-state fields the embedded code reads or writes, with
Python's key-absent-reads-as-default collapsed into the defaults.
`lastDashboardTs` is the loop-local refresh timer (reset by the
`cmd_status` button); `lastStatusPress` is the owner chat's entry of
`last_status_press`. -/
structure BotState where
  counters : CounterState := {}
  trafficHist : List (ℚ × ℚ) := []
  lifetimeHist : List (ℚ × ℚ) := []
  daily : DailyAcc := {}
  lastGood : Option Metrics := none
  triad : TriadIds := {}
  lastStatusPress : ℚ := 0
  lastDashboardTs : ℚ := 0
  lastUpdateId : Option Int := none
deriving DecidableEq

/-- The `if metrics:` ingestion block repeated at main.py:1238-1243
(periodic tick), main.py:1400-1405 (`stop_conduit_confirm`) and
main.py:1532-1537 (`/start`): on a non-empty sample run
`update_lifetime_traffic`, `append_lifetime_history`,
`append_metrics_history` and `update_client_seconds_today(connected, 30.0)`
in that order; an empty sample changes nothing. -/
def metrics_ingest (st : BotState) (m : Metrics) (today : String) : BotState :=
  if !m.nonempty then st
  else
    let c := update_lifetime_traffic st.counters (m.bytesUp.getD 0) (m.bytesDown.getD 0)
    { st with
      counters := c
      lifetimeHist := append_lifetime_history st.lifetimeHist c
      trafficHist := append_metrics_history st.trafficHist (m.bytesUp.getD 0) (m.bytesDown.getD 0)
      daily := update_client_seconds_today st.daily (pyTrunc (m.connected.getD 0)) today 30 }

/-- External inputs of one periodic refresh pass. -/
structure TickEnv where
  conduitEnvFile : Option (List (List Char))
  svcStatus : String
  metricsNet : Option (List (List Char))
  today : String
  dashEnv : DashEnv
deriving DecidableEq

/-- Result of one periodic refresh pass. -/
structure RefreshOut where
  st : BotState
  view : StatusView
  dashSends : Nat × Nat
deriving DecidableEq

/-- The periodic dashboard update block of `_main_loop`
(main.py:1231-1270): load the config, fetch metrics and — when the fetch
call returns (it returns the empty dict on network failure) —
unconditionally store the result as `last_good_metrics`, ingest non-empty
samples, build the status message from `metrics` and the (possibly
just-overwritten) cache, and push it through `update_dashboard_for_chat`.
When the metrics parser raises (`fetch_metrics` result `none`), the
`except` at main.py:1244 leaves `metrics = None` and the cache untouched. -/
def periodic_refresh (st : BotState) (env : TickEnv) : RefreshOut :=
  let mcbw := load_conduit_env env.conduitEnvFile
  let fetched := fetch_metrics env.metricsNet
  let p : Option Metrics × BotState :=
    match fetched with
    | none => (none, st)
    | some m => (some m, metrics_ingest { st with lastGood := some m } m env.today)
  let view := build_status_message p.1 mcbw.1 mcbw.2 env.svcStatus p.2.lastGood
  let r := update_dashboard_for_chat p.2.triad env.dashEnv
  ⟨{ p.2 with triad := r.1 }, view, r.2⟩

/-! ### Command-desk dispatcher (main.py:1283-1503)

Each branch of the `callback_query` if/elif chain is modelled by the
state transform it applies and the trace of outbound calls and OS side
effects it issues, in source order. An `editDesk text kb` effect denotes
one `edit_command_desk(api, state, chat_id, text, keyboard)` call with
exactly those arguments; its internal edit/recreate behaviour is the
`edit_command_desk` function above, which the dispatcher also applies to
the stored triad. `updateDash` likewise denotes one
`update_dashboard_for_chat` call. -/

/-- `DASHBOARD_VERSION` (main.py:13). -/
def DASHBOARD_VERSION : String := "1.0"

/-- `REPO_URL` (main.py:15). -/
def REPO_URL : String := "https://github.com/0xn0c0de/easyconduit"

/-- `CMD_DESK_MAIN_TEXT` (main.py:66), the Main node's canonical text. -/
def CMD_DESK_MAIN_TEXT : String := "EasyConduit – Control Panel\n(Use the buttons below.)"

/-- The Configs node's canonical text (main.py:1309, 1337, 1467). -/
def CONFIGS_TEXT : String :=
  "Configs – limits and Conduit control. Conduit service will restart when you change limits."

/-- The Limits node's text (main.py:1317). -/
def LIMITS_TEXT : String :=
  "Max connection limit (50–300). Conduit supports this range; service restarts after change."

/-- The Bandwidth node's text (main.py:1325). -/
def BANDWIDTH_TEXT : String := "Max bandwidth (5–30 Mbps). Service restarts after change."

/-- The ConfirmRestart node's text (main.py:1371). -/
def RESTART_CONFIRM_TEXT : String :=
  "Restart (or start) Conduit service? It will apply current limits."

/-- The ConfirmStop node's text (main.py:1388). -/
def STOP_CONFIRM_TEXT : String :=
  "Stop Conduit? Dashboard will show STOPPED. You can start again via Configs → Restart/Start Conduit."

/-- The ConfirmUpdate node's text (main.py:1438-1444). -/
def UPDATE_CONFIRM_TEXT : String :=
  "EasyConduit – Update\n\nYou are on EasyConduit v" ++ DASHBOARD_VERSION ++
    ".\n\nPress the button below to re-download and reinstall this version from GitHub, " ++
    "or Cancel to go back.\n\nProject: " ++ REPO_URL

/-- The ConfirmReboot node's text (main.py:1475). -/
def REBOOT_CONFIRM_TEXT : String :=
  "Reboot the entire server? All connections will drop. Only use if needed."

/-- The Info node's text (main.py:1489-1495). -/
def INFO_TEXT : String :=
  "EasyConduit v" ++ DASHBOARD_VERSION ++ " – About\n\n" ++
    "This bot controls a Psiphon Conduit inproxy on this server. " ++
    "You see a live dashboard (image + status) and a Control Panel with buttons. " ++
    "Conduit limits (max clients, bandwidth) take effect after a service restart.\n\n" ++
    "Project: " ++ REPO_URL

/-- The keyboard builders (main.py:876-979), named by the node they show.
`confirmUpdate` carries the `label_yes` argument of
`build_update_confirm_keyboard`. -/
inductive Kb where
  | main
  | configs
  | limits
  | bandwidth
  | confirmRestart
  | confirmStop
  | confirmUpdate (labelYes : String)
  | confirmReboot
deriving DecidableEq

/-- One outbound call or OS side effect issued by the event handlers. -/
inductive BotEffect where
  | ansCb (text : String)
  | editDesk (text : String) (kb : Kb)
  | updateDash
  | sendMsg (text : String)
  | deleteMsg
  | ensureMsgs (sends : Nat)
  | setParam (key value : String)
  | svcRestart
  | svcStop
  | svcReboot
  | runUpdateScript
  | saveState
deriving DecidableEq

/-- `status_rate_limit_sec` (main.py:1207). -/
def status_rate_limit_sec : ℚ := 10

/-- Split on a separator character (Python `str.split(sep)`). -/
def splitOnChar (sep : Char) : List Char → List (List Char)
  | [] => [[]]
  | c :: t =>
    match splitOnChar sep t with
    | [] => [[]]
    | r :: rs => if c = sep then [] :: r :: rs else (c :: r) :: rs

/-- Rejoin split parts with `'_'`. -/
def joinUnderscore : List (List Char) → List Char
  | [] => []
  | [x] => x
  | x :: xs => x ++ '_' :: joinUnderscore xs

/-- `int(data.split("_", 2)[2])`'s argument: everything after the second
underscore (maxsplit 2 keeps later underscores in the third part). -/
def tokenAfter2 (data : List Char) : List Char :=
  joinUnderscore ((splitOnChar '_' data).drop 2)

/-- External inputs a callback branch may consume. -/
structure CbEnv where
  now : ℚ
  conduitEnvFile : Option (List (List Char))
  svcStatus : String
  metricsNet : Option (List (List Char))
  today : String
  dashEnv : DashEnv
  cmdEnv : CmdEnv
deriving DecidableEq

/-- Outcome of handling one event: new state, effect trace, and whether
an uncaught exception escaped the handler (aborting the trace where it
stops, skipping the per-event save at main.py:1502). -/
structure CbOut where
  st : BotState
  effects : List BotEffect
  crashed : Bool
deriving DecidableEq

/-- Apply one `edit_command_desk` call to the state. -/
def applyDesk (st : BotState) (env : CmdEnv) : BotState :=
  { st with triad := (edit_command_desk st.triad env).1 }

/-- The `callback_query` dispatch chain (main.py:1296-1500), for an
already-authorized press with callback data `data`. The
`reboot_cancel` branch (main.py:1485) calls the undefined name
`cmd_desk_main_text()`: evaluating the argument raises `NameError` before
`edit_command_desk` or the acknowledgment runs, so that branch produces no
effect and crashes. -/
def handle_callback (env : CbEnv) (st : BotState) (data : List Char) : CbOut :=
  if data = chars "cmd_status" then
    if env.now - st.lastStatusPress < status_rate_limit_sec then
      ⟨st, [.ansCb "Please wait before refreshing again."], false⟩
    else
      ⟨{ st with lastStatusPress := env.now, lastDashboardTs := 0 },
        [.ansCb "Refreshing…"], false⟩
  else if data = chars "cmd_configs" then
    ⟨applyDesk st env.cmdEnv, [.editDesk CONFIGS_TEXT .configs, .ansCb ""], false⟩
  else if data = chars "cmd_limits" then
    ⟨applyDesk st env.cmdEnv, [.editDesk LIMITS_TEXT .limits, .ansCb ""], false⟩
  else if data = chars "cmd_bandwidth" then
    ⟨applyDesk st env.cmdEnv, [.editDesk BANDWIDTH_TEXT .bandwidth, .ansCb ""], false⟩
  else if data = chars "back_main" then
    ⟨applyDesk st env.cmdEnv, [.editDesk CMD_DESK_MAIN_TEXT .main, .ansCb ""], false⟩
  else if data = chars "back_configs" then
    ⟨applyDesk st env.cmdEnv, [.editDesk CONFIGS_TEXT .configs, .ansCb ""], false⟩
  else if startsWithSeq data (chars "set_clients_") then
    match pyInt (tokenAfter2 data) with
    | some mc =>
      if mc ∈ ([50, 75, 100, 125, 150, 200, 250, 300] : List Int) then
        ⟨st, [.setParam "MAX_CLIENTS" (toString mc), .svcRestart,
          .ansCb ("Max clients set to " ++ toString mc ++ ". Conduit restarting.")], false⟩
      else ⟨st, [.ansCb "Use one of the preset values."], false⟩
    | none => ⟨st, [.ansCb "Invalid value."], false⟩
  else if startsWithSeq data (chars "set_bw_") then
    match pyInt (tokenAfter2 data) with
    | some bw =>
      if bw ∈ ([5, 10, 15, 20, 25, 30] : List Int) then
        ⟨st, [.setParam "BANDWIDTH" (toString bw), .svcRestart,
          .ansCb ("Bandwidth set to " ++ toString bw ++ " Mbps. Conduit restarting.")], false⟩
      else ⟨st, [.ansCb "Use one of the preset values."], false⟩
    | none => ⟨st, [.ansCb "Invalid value."], false⟩
  else if data = chars "cmd_restart_conduit" then
    ⟨applyDesk st env.cmdEnv, [.editDesk RESTART_CONFIRM_TEXT .confirmRestart, .ansCb ""], false⟩
  else if data = chars "restart_conduit_confirm" then
    ⟨applyDesk st env.cmdEnv,
      [.svcRestart, .editDesk CMD_DESK_MAIN_TEXT .main, .ansCb "Conduit restarted."], false⟩
  else if data = chars "restart_conduit_cancel" then
    ⟨applyDesk st env.cmdEnv, [.editDesk CMD_DESK_MAIN_TEXT .main, .ansCb "Cancelled."], false⟩
  else if data = chars "cmd_stop_conduit" then
    ⟨applyDesk st env.cmdEnv, [.editDesk STOP_CONFIRM_TEXT .confirmStop, .ansCb ""], false⟩
  else if data = chars "stop_conduit_confirm" then
    let fetched := fetch_metrics env.metricsNet
    let st1 :=
      match fetched with
      | none => st
      | some m => metrics_ingest st m env.today
    let st2 := { st1 with triad := (update_dashboard_for_chat st1.triad env.dashEnv).1 }
    let st3 := { st2 with lastGood := match fetched with
      | some m => some m
      | none => st2.lastGood }
    ⟨applyDesk st3 env.cmdEnv,
      [.svcStop, .updateDash, .editDesk CMD_DESK_MAIN_TEXT .main,
        .ansCb "Conduit stopped. Status updated."], false⟩
  else if data = chars "stop_conduit_cancel" then
    ⟨applyDesk st env.cmdEnv, [.editDesk CMD_DESK_MAIN_TEXT .main, .ansCb "Cancelled."], false⟩
  else if data = chars "cmd_update" then
    ⟨applyDesk st env.cmdEnv,
      [.editDesk UPDATE_CONFIRM_TEXT (.confirmUpdate ("🔄 Reinstall v" ++ DASHBOARD_VERSION)),
        .ansCb ""], false⟩
  else if data = chars "update_confirm" then
    ⟨applyDesk st env.cmdEnv,
      [.ansCb "Updating…", .editDesk CMD_DESK_MAIN_TEXT .main, .saveState,
        .runUpdateScript], false⟩
  else if data = chars "update_cancel" then
    ⟨applyDesk st env.cmdEnv, [.editDesk CONFIGS_TEXT .configs, .ansCb "Cancelled."], false⟩
  else if data = chars "cmd_reboot" then
    ⟨applyDesk st env.cmdEnv, [.editDesk REBOOT_CONFIRM_TEXT .confirmReboot, .ansCb ""], false⟩
  else if data = chars "reboot_confirm" then
    ⟨st, [.ansCb "Rebooting now…", .svcReboot], false⟩
  else if data = chars "reboot_cancel" then
    ⟨st, [], true⟩
  else if data = chars "cmd_info" then
    ⟨applyDesk st env.cmdEnv, [.editDesk INFO_TEXT .main, .ansCb ""], false⟩
  else
    ⟨st, [.ansCb ""], false⟩

/-! ### Event loop dispatch (main.py:1278-1584) -/

/-- An inbound Telegram update, reduced to the fields the loop reads.
Updates that are neither callback queries nor messages are skipped by the
loop after the offset bump and are not modelled further. -/
inductive TgUpdate where
  | callback (updateId : Int) (chatId : Int) (data : List Char)
  | message (updateId : Int) (chatId : Int) (text : List Char)
deriving DecidableEq

/-- External inputs of the `/start` bootstrap path. -/
structure StartEnv where
  conduitEnvFile : Option (List (List Char))
  svcStatus : String
  metricsNet : Option (List (List Char))
  today : String
  ensureEnv : EnsureEnv
deriving DecidableEq

/-- One iteration of the per-update loop body (main.py:1278-1584):
record `last_update_id`, then dispatch. A non-owner callback is answered
with the rejection ack and skipped (`continue` before any state access,
main.py:1291-1294); an owner callback runs `handle_callback` followed by
the per-event `save_state` (main.py:1502) unless the branch crashed. A
message is ignored unless its text starts with `/start`; a non-owner
`/start` gets one rejection reply and is skipped (main.py:1515-1523); the
owner's `/start` tears down the triad, ingests a fresh sample, recreates
the messages via `ensure_chat_messages` and saves. -/
def handle_update (owner : Int) (cbEnv : CbEnv) (sEnv : StartEnv) (st : BotState)
    (u : TgUpdate) : CbOut :=
  match u with
  | .callback uid cid data =>
    let st1 := { st with lastUpdateId := some uid }
    if cid ≠ owner then
      ⟨st1, [.ansCb "Not authorized. Only the chat ID set during installation can use this bot."],
        false⟩
    else
      let out := handle_callback cbEnv st1 data
      if out.crashed then out else ⟨out.st, out.effects ++ [.saveState], false⟩
  | .message uid cid text =>
    let st1 := { st with lastUpdateId := some uid }
    if !(startsWithSeq text (chars "/start")) then ⟨st1, [], false⟩
    else if cid ≠ owner then
      ⟨st1, [.sendMsg "Not authorized. Only the chat ID set during installation can use this bot."],
        false⟩
    else
      let d := delete_chat_ui_messages st1.triad
      let st2 := { st1 with triad := d.1 }
      let fetched := fetch_metrics sEnv.metricsNet
      let st3 :=
        match fetched with
        | none => st2
        | some m => metrics_ingest st2 m sEnv.today
      let e := ensure_chat_messages st3.triad sEnv.ensureEnv
      ⟨{ st3 with triad := e.1 },
        List.replicate d.2 .deleteMsg ++ [.ensureMsgs e.2, .saveState], false⟩

/-! ### Statement-level definitions used by the theorems -/

/-- The shape invariant of config entries that round-trip through
`set_conduit_param`'s rewrite: key and value carry no surrounding
whitespace, the key contains no `'='` and does not start with `'#'`. -/
def goodPair (p : List Char × List Char) : Prop :=
  stripChars p.1 = p.1 ∧ stripChars p.2 = p.2 ∧ '=' ∉ p.1 ∧ p.1.head? ≠ some '#'

/-- The literal reading of C5: whenever any of the three triad ids is
unset, both reconciler update entry points send nothing and record
nothing. -/
def incompleteTriadClaim : Prop :=
  ∀ (t : TriadIds) (denv : DashEnv) (cenv : CmdEnv),
    (t.dash = none ∨ t.status = none ∨ t.cmd = none) →
    update_dashboard_for_chat t denv = (t, 0, 0) ∧ edit_command_desk t cenv = (t, 0)

/-- A non-empty cached sample, for the fetch-failure scenario. -/
def cachedSample : Metrics :=
  { connected := some 3, bytesUp := some 111, bytesDown := some 222, isLive := some 1 }

/-- State holding `cachedSample` as `last_good_metrics` (triad unset, so
the dashboard push is a no-op). -/
def preFailureState : BotState := { lastGood := some cachedSample }

/-- A periodic tick in which the metrics fetch fails at the network level. -/
def failedTickEnv : TickEnv :=
  ⟨none, "active", none, "2024-01-01", ⟨.ok 1, .ok 1, .ok 1, .ok 1⟩⟩

/-! ## Theorems -/

/-- Folding the aggregator never decreases the lifetime totals. -/
theorem lifetime_foldl_mono (samples : List (ℚ × ℚ)) :
    ∀ st : CounterState,
      st.lifeUp ≤ (samples.foldl (fun s p => update_lifetime_traffic s p.1 p.2) st).lifeUp ∧
      st.lifeDn ≤ (samples.foldl (fun s p => update_lifetime_traffic s p.1 p.2) st).lifeDn := by
  induction samples with
  | nil => intro st; exact ⟨le_refl _, le_refl _⟩
  | cons p ps ih =>
    intro st
    have hstep : st.lifeUp ≤ (update_lifetime_traffic st p.1 p.2).lifeUp ∧
        st.lifeDn ≤ (update_lifetime_traffic st p.1 p.2).lifeDn := by
      simp only [update_lifetime_traffic]
      constructor <;> split <;> linarith
    have := ih (update_lifetime_traffic st p.1 p.2)
    exact ⟨le_trans hstep.1 (by simpa using this.1), le_trans hstep.2 (by simpa using this.2)⟩

/-- C1: `update_lifetime_traffic` credits, per direction independently,
exactly the non-negative delta `current - last seen` (no credit on a
decrease), always records the sample as last seen, the lifetime totals are
monotone non-decreasing across any sample sequence, and the sample
sequence `[0, 1000, 2000, 500, 800]` yields lifetime-upload values
`[0, 1000, 2000, 2000, 2300]`. -/
theorem update_lifetime_traffic_spec :
    (∀ (st : CounterState) (u d : ℚ),
      (st.lastUp ≤ u → (update_lifetime_traffic st u d).lifeUp = st.lifeUp + (u - st.lastUp)) ∧
      (u < st.lastUp → (update_lifetime_traffic st u d).lifeUp = st.lifeUp) ∧
      (st.lastDn ≤ d → (update_lifetime_traffic st u d).lifeDn = st.lifeDn + (d - st.lastDn)) ∧
      (d < st.lastDn → (update_lifetime_traffic st u d).lifeDn = st.lifeDn) ∧
      (update_lifetime_traffic st u d).lastUp = u ∧
      (update_lifetime_traffic st u d).lastDn = d ∧
      st.lifeUp ≤ (update_lifetime_traffic st u d).lifeUp ∧
      st.lifeDn ≤ (update_lifetime_traffic st u d).lifeDn) ∧
    (∀ (samples : List (ℚ × ℚ)) (st : CounterState),
      st.lifeUp ≤ (samples.foldl (fun s p => update_lifetime_traffic s p.1 p.2) st).lifeUp ∧
      st.lifeDn ≤ (samples.foldl (fun s p => update_lifetime_traffic s p.1 p.2) st).lifeDn) ∧
    ((([0, 1000, 2000, 500, 800] : List ℚ).scanl
        (fun s u => update_lifetime_traffic s u 0) {}).map CounterState.lifeUp
      = [0, 0, 1000, 2000, 2000, 2300]) := by
  refine ⟨?_, fun samples st => lifetime_foldl_mono samples st, ?_⟩
  · intro st u d
    refine ⟨fun h => ?_, fun h => ?_, fun h => ?_, fun h => ?_, rfl, rfl, ?_, ?_⟩
    · simp only [update_lifetime_traffic]; rw [if_pos h]
    · simp only [update_lifetime_traffic]; rw [if_neg (not_le.mpr h)]
    · simp only [update_lifetime_traffic]; rw [if_pos h]
    · simp only [update_lifetime_traffic]; rw [if_neg (not_le.mpr h)]
    · simp only [update_lifetime_traffic]
      split
      · linarith
      · exact le_refl _
    · simp only [update_lifetime_traffic]
      split
      · linarith
      · exact le_refl _
  · norm_num [List.scanl, update_lifetime_traffic]

/-- Witness for `update_lifetime_traffic_spec`: the delta rule at a rise
and at a drop, at concrete inputs. -/
theorem update_lifetime_traffic_spec_witness :
    (update_lifetime_traffic ⟨0, 0, 0, 0⟩ 1000 0).lifeUp = 0 + (1000 - 0) ∧
    (update_lifetime_traffic ⟨2000, 0, 2000, 0⟩ 500 0).lifeUp = 2000 :=
  ⟨(update_lifetime_traffic_spec.1 ⟨0, 0, 0, 0⟩ 1000 0).1 (by decide),
   (update_lifetime_traffic_spec.1 ⟨2000, 0, 2000, 0⟩ 500 0).2.1 (by decide)⟩

/-- Folding appends from the empty buffer keeps exactly the most recent
at most 40 samples: the invariant, generalized over a start buffer of
length at most 40. -/
theorem hist_foldl_drop (samples : List (ℚ × ℚ)) :
    ∀ acc : List (ℚ × ℚ), acc.length ≤ 40 →
      samples.foldl (fun h p => append_metrics_history h p.1 p.2) acc =
        (acc ++ samples).drop (acc.length + samples.length - 40) := by
  induction samples with
  | nil =>
    intro acc hle
    simp only [List.foldl_nil, List.length_nil, List.append_nil]
    rw [Nat.add_zero, Nat.sub_eq_zero_of_le hle, List.drop_zero]
  | cons x s ih =>
    intro acc hle
    simp only [List.foldl_cons]
    have hxpair : ((x.1, x.2) : ℚ × ℚ) = x := rfl
    by_cases hlt : acc.length < 40
    · have hstep : append_metrics_history acc x.1 x.2 = acc ++ [x] := by
        simp only [append_metrics_history, HISTORY_MAX, hxpair]
        rw [if_neg (by simp only [List.length_append, List.length_cons, List.length_nil]; omega)]
      rw [hstep, ih _ (by simp only [List.length_append, List.length_cons, List.length_nil]; omega)]
      rw [List.append_assoc, List.singleton_append]
      congr 1
      simp only [List.length_append, List.length_cons, List.length_nil]
      omega
    · have hacc : acc.length = 40 := by omega
      have hstep : append_metrics_history acc x.1 x.2 = (acc ++ [x]).drop 1 := by
        simp only [append_metrics_history, HISTORY_MAX, hxpair]
        rw [if_pos (by simp only [List.length_append, List.length_cons, List.length_nil]; omega)]
        congr 1
        simp only [List.length_append, List.length_cons, List.length_nil, hacc]
      have hlen1 : ((acc ++ [x]).drop 1).length = 40 := by
        simp only [List.length_drop, List.length_append, List.length_cons, List.length_nil, hacc]
      rw [hstep, ih _ (by rw [hlen1])]
      have h1 : ((acc ++ [x]).drop 1) ++ s = (acc ++ x :: s).drop 1 := by
        rw [← List.drop_append_of_le_length
          (by simp only [List.length_append, List.length_cons, List.length_nil]; omega)]
        rw [List.append_assoc, List.singleton_append]
      rw [h1, List.drop_drop]
      congr 1
      rw [hlen1]
      simp only [List.length_cons, hacc]
      omega

/-- C6: both history appends push the sample to the back; once the length
would exceed 40 they drop from the front down to exactly 40; the result is
always a suffix (most recent entries, chronological order) of length
`min (n+1) 40`; folding any sample sequence into an empty buffer leaves
its last at-most-40 samples; in particular 45 appended samples leave
exactly samples 6..45 in original order. -/
theorem history_append_spec :
    (∀ (h : List (ℚ × ℚ)) (up dn : ℚ),
      (h.length < 40 → append_metrics_history h up dn = h ++ [(up, dn)]) ∧
      (40 ≤ h.length →
        append_metrics_history h up dn = (h ++ [(up, dn)]).drop (h.length + 1 - 40) ∧
        (append_metrics_history h up dn).length = 40) ∧
      (append_metrics_history h up dn).length = min (h.length + 1) 40 ∧
      (append_metrics_history h up dn) <:+ (h ++ [(up, dn)])) ∧
    (∀ (h : List (ℚ × ℚ)) (c : CounterState),
      append_lifetime_history h c = append_metrics_history h c.lifeUp c.lifeDn) ∧
    (∀ samples : List (ℚ × ℚ),
      samples.foldl (fun h p => append_metrics_history h p.1 p.2) [] =
        samples.drop (samples.length - 40)) ∧
    (∀ samples : List (ℚ × ℚ), samples.length = 45 →
      samples.foldl (fun h p => append_metrics_history h p.1 p.2) [] = samples.drop 5 ∧
      (samples.foldl (fun h p => append_metrics_history h p.1 p.2) []).length = 40) := by
  refine ⟨?_, fun h c => rfl, ?_, ?_⟩
  · intro h up dn
    have hlen : (h ++ [(up, dn)]).length = h.length + 1 := by simp
    refine ⟨fun hlt => ?_, fun hge => ?_, ?_, ?_⟩
    · simp only [append_metrics_history, HISTORY_MAX]
      rw [if_neg (by omega)]
    · constructor
      · simp only [append_metrics_history, HISTORY_MAX]
        rw [if_pos (by omega), hlen]
      · simp only [append_metrics_history, HISTORY_MAX]
        rw [if_pos (by omega)]
        simp only [List.length_drop, hlen]
        omega
    · simp only [append_metrics_history, HISTORY_MAX]
      split
      · simp only [List.length_drop, hlen]; omega
      · simp only [hlen]
        have : h.length + 1 ≤ 40 := by omega
        omega
    · simp only [append_metrics_history, HISTORY_MAX]
      split
      · exact List.drop_suffix _ _
      · exact List.suffix_refl _
  · intro samples
    have := hist_foldl_drop samples [] (by simp)
    simpa using this
  · intro samples h45
    have hd : samples.foldl (fun h p => append_metrics_history h p.1 p.2) [] =
        samples.drop 5 := by
      have := hist_foldl_drop samples [] (by simp)
      simpa [h45] using this
    exact ⟨hd, by rw [hd]; simp [h45]⟩

/-- Witness for `history_append_spec`: a below-bound append at a concrete
input, and the 45-sample bound at a concrete 45-sample buffer. -/
theorem history_append_spec_witness :
    append_metrics_history [(1, 2)] 3 4 = [(1, 2), (3, 4)] ∧
    (List.replicate 45 ((0 : ℚ), (0 : ℚ))).foldl
        (fun h p => append_metrics_history h p.1 p.2) [] =
      (List.replicate 45 ((0 : ℚ), (0 : ℚ))).drop 5 :=
  ⟨(history_append_spec.1 [(1, 2)] 3 4).1 (by simp),
   ((history_append_spec.2.2.2 (List.replicate 45 ((0 : ℚ), (0 : ℚ))) (by simp)).1)⟩

/-- C8: `update_client_seconds_today` at interval 30: when the stored UTC
date marker differs from today (including an absent marker), the
accumulator is reset before adding, yielding exactly `c * 30` with the
marker set to today; otherwise the previous value is incremented by
`c * 30`. -/
theorem update_client_seconds_today_spec :
    ∀ (st : DailyAcc) (c : Int) (today : String),
      (st.lastDay ≠ some today →
        update_client_seconds_today st c today 30 = ⟨some today, (c : ℚ) * 30⟩) ∧
      (st.lastDay = some today →
        update_client_seconds_today st c today 30 = ⟨some today, st.value + (c : ℚ) * 30⟩) := by
  intro st c today
  constructor
  · intro hne
    simp only [update_client_seconds_today, if_pos hne]
    simp
  · intro heq
    simp only [update_client_seconds_today]
    rw [if_neg (by simp [heq])]
    cases st
    simp_all

/-- Witness for `update_client_seconds_today_spec`: a day rollover and a
same-day sample, at concrete inputs. -/
theorem update_client_seconds_today_spec_witness :
    update_client_seconds_today ⟨some "2024-01-01", 100⟩ 2 "2024-01-02" 30 =
      ⟨some "2024-01-02", (2 : ℚ) * 30⟩ ∧
    update_client_seconds_today ⟨some "2024-01-02", 100⟩ 2 "2024-01-02" 30 =
      ⟨some "2024-01-02", 100 + (2 : ℚ) * 30⟩ :=
  ⟨(update_client_seconds_today_spec ⟨some "2024-01-01", 100⟩ 2 "2024-01-02").1 (by decide),
   (update_client_seconds_today_spec ⟨some "2024-01-02", 100⟩ 2 "2024-01-02").2 rfl⟩

/-- C2: an edit failure on a slot whose stored id is set falls into
exactly the three classified outcomes — `unchanged` and `other` leave the
stored id unchanged and send nothing; `targetMissing` issues exactly one
replacement send, recording its id on success and leaving the stored id
unchanged on a failed send. Each slot's outcome depends only on its own
edit attempt: `update_dashboard_for_chat` composes the two slot edits and
never touches the command id, and `edit_command_desk` edits only the
command slot. -/
theorem edit_failure_outcomes_spec :
    (∀ (stored : Nat) (m : List Char) (sendRes : ApiRes),
      (classify_edit_error m = .unchanged → edit_slot stored (.err m) sendRes = (stored, 0)) ∧
      (classify_edit_error m = .other → edit_slot stored (.err m) sendRes = (stored, 0)) ∧
      (classify_edit_error m = .targetMissing →
        (edit_slot stored (.err m) sendRes).2 = 1 ∧
        (∀ nid, sendRes = .ok nid → (edit_slot stored (.err m) sendRes).1 = nid) ∧
        (∀ em, sendRes = .err em → (edit_slot stored (.err m) sendRes).1 = stored))) ∧
    (∀ (stored : Nat) (k : Nat) (sendRes : ApiRes),
      edit_slot stored (.ok k) sendRes = (stored, 0)) ∧
    (∀ (t : TriadIds) (env : DashEnv),
      py_truthy t.dash = true → py_truthy t.status = true →
      update_dashboard_for_chat t env =
        ({ dash := some (edit_slot (t.dash.getD 0) env.editMediaRes env.sendPhotoRes).1,
           status := some (edit_slot (t.status.getD 0) env.editTextRes env.sendMsgRes).1,
           cmd := t.cmd },
          (edit_slot (t.dash.getD 0) env.editMediaRes env.sendPhotoRes).2,
          (edit_slot (t.status.getD 0) env.editTextRes env.sendMsgRes).2)) ∧
    (∀ (t : TriadIds) (env : CmdEnv),
      py_truthy t.cmd = true →
      edit_command_desk t env =
        ({ t with cmd := some (edit_slot (t.cmd.getD 0) env.editTextRes env.sendMsgRes).1 },
          (edit_slot (t.cmd.getD 0) env.editTextRes env.sendMsgRes).2)) := by
  refine ⟨?_, ?_, ?_, ?_⟩
  · intro stored m sendRes
    refine ⟨fun h => ?_, fun h => ?_, fun h => ⟨?_, fun nid hs => ?_, fun em hs => ?_⟩⟩ <;>
      cases sendRes <;> simp_all [edit_slot]
  · intro stored k sendRes
    rfl
  · intro t env h1 h2
    simp only [update_dashboard_for_chat, h1, h2, Bool.not_true, Bool.or_self,
      Bool.false_eq_true, if_false]
  · intro t env h
    simp only [edit_command_desk, h, Bool.not_true, Bool.false_eq_true, if_false]

/-- Witness for `edit_failure_outcomes_spec`: the three outcomes and both
composite edits evaluated at concrete inputs. -/
theorem edit_failure_outcomes_spec_witness :
    edit_slot 5 (.err (chars "Bad Request: message is not modified")) (.ok 9) = (5, 0) ∧
    edit_slot 5 (.err (chars "some transient error")) (.ok 9) = (5, 0) ∧
    (edit_slot 5 (.err (chars "Bad Request: message to edit not found")) (.ok 9)).1 = 9 ∧
    update_dashboard_for_chat ⟨some 1, some 2, some 3⟩
        ⟨.err (chars "message not found"), .ok 50, .ok 7, .ok 8⟩ =
      (⟨some 50, some 2, some 3⟩, 1, 0) ∧
    edit_command_desk ⟨some 1, some 2, some 3⟩ ⟨.err (chars "message can't be edited"), .ok 77⟩ =
      (⟨some 1, some 2, some 77⟩, 1) := by
  refine ⟨?_, ?_, ?_, ?_, ?_⟩
  · exact (edit_failure_outcomes_spec.1 5 (chars "Bad Request: message is not modified")
      (.ok 9)).1 (by decide)
  · exact (edit_failure_outcomes_spec.1 5 (chars "some transient error") (.ok 9)).2.1 (by decide)
  · exact ((edit_failure_outcomes_spec.1 5 (chars "Bad Request: message to edit not found")
      (.ok 9)).2.2 (by decide)).2.1 9 rfl
  · exact (edit_failure_outcomes_spec.2.2.1 ⟨some 1, some 2, some 3⟩
      ⟨.err (chars "message not found"), .ok 50, .ok 7, .ok 8⟩ (by decide) (by decide)).trans
      (by decide)
  · exact (edit_failure_outcomes_spec.2.2.2 ⟨some 1, some 2, some 3⟩
      ⟨.err (chars "message can't be edited"), .ok 77⟩ (by decide)).trans (by decide)

/-- C5 counterexample: with the command id unset but dashboard and status
ids set, the update path is not a no-op — a missing-target dashboard edit
sends a replacement photo and overwrites the stored dashboard id, and
`edit_command_desk` creates the command message and records its id. -/
theorem incomplete_triad_noop_counterexample :
    ¬ incompleteTriadClaim ∧
    update_dashboard_for_chat ⟨some 1, some 2, none⟩
        ⟨.err (chars "message not found"), .ok 50, .ok 7, .ok 8⟩ =
      (⟨some 50, some 2, none⟩, 1, 0) ∧
    edit_command_desk ⟨some 1, some 2, none⟩ ⟨.ok 0, .ok 99⟩ =
      (⟨some 1, some 2, some 99⟩, 1) := by
  refine ⟨?_, by decide, by decide⟩
  intro h
  have hc := (h ⟨some 1, some 2, none⟩
    ⟨.err (chars "message not found"), .ok 50, .ok 7, .ok 8⟩ ⟨.ok 0, .ok 99⟩
    (Or.inr (Or.inr rfl))).1
  exact absurd hc (by decide)

/-- C5 amended: `update_dashboard_for_chat` is a no-op (nothing sent,
no id recorded) exactly when the dashboard id or the status id is falsy —
the command id is not consulted by that path; `edit_command_desk` with a
falsy command id creates the command-desk message, sending exactly one
message and recording its id when the send succeeds (a failed send records
nothing). -/
theorem incomplete_triad_noop_amended :
    (∀ (t : TriadIds) (env : DashEnv),
      (py_truthy t.dash = false ∨ py_truthy t.status = false) →
      update_dashboard_for_chat t env = (t, 0, 0)) ∧
    (∀ (t : TriadIds) (env : CmdEnv) (nid : Nat),
      py_truthy t.cmd = false → env.sendMsgRes = .ok nid →
      edit_command_desk t env = ({ t with cmd := some nid }, 1)) ∧
    (∀ (t : TriadIds) (env : CmdEnv) (em : List Char),
      py_truthy t.cmd = false → env.sendMsgRes = .err em →
      edit_command_desk t env = (t, 1)) := by
  refine ⟨?_, ?_, ?_⟩
  · intro t env h
    rcases h with h | h <;> simp [update_dashboard_for_chat, h]
  · intro t env nid h hs
    simp [edit_command_desk, h, hs]
  · intro t env em h hs
    simp [edit_command_desk, h, hs]

/-- Witness for `incomplete_triad_noop_amended`: an unset dashboard id
makes the dashboard update a no-op, and an unset command id makes
`edit_command_desk` create and record, at concrete inputs. -/
theorem incomplete_triad_noop_amended_witness :
    update_dashboard_for_chat ⟨none, some 2, some 3⟩ ⟨.ok 1, .ok 1, .ok 1, .ok 1⟩ =
      (⟨none, some 2, some 3⟩, 0, 0) ∧
    edit_command_desk ⟨some 1, some 2, none⟩ ⟨.ok 0, .ok 99⟩ =
      (⟨some 1, some 2, some 99⟩, 1) :=
  ⟨incomplete_triad_noop_amended.1 ⟨none, some 2, some 3⟩ ⟨.ok 1, .ok 1, .ok 1, .ok 1⟩
      (Or.inl rfl),
   incomplete_triad_noop_amended.2.1 ⟨some 1, some 2, none⟩ ⟨.ok 0, .ok 99⟩ 99 rfl rfl⟩

/-- C4 (code bug at `reboot_cancel`): pressing `reboot_cancel` evaluates
the undefined name `cmd_desk_main_text()` (main.py:1485) and raises
`NameError` before any outbound call: the command desk is not edited and
the press is never acknowledged. The other three cancel tokens behave as
specified — desk edited to the destination node's canonical text and
keyboard, press acknowledged, no service-control side effect — and
`stop_conduit_confirm` issues the stop side effect exactly once. -/
theorem reboot_cancel_namerror :
    (∀ (env : CbEnv) (st : BotState),
      handle_callback env st (chars "reboot_cancel") = ⟨st, [], true⟩) ∧
    (∀ (env : CbEnv) (st : BotState),
      (handle_callback env st (chars "restart_conduit_cancel")).effects =
        [.editDesk CMD_DESK_MAIN_TEXT .main, .ansCb "Cancelled."] ∧
      (handle_callback env st (chars "restart_conduit_cancel")).crashed = false ∧
      (handle_callback env st (chars "stop_conduit_cancel")).effects =
        [.editDesk CMD_DESK_MAIN_TEXT .main, .ansCb "Cancelled."] ∧
      (handle_callback env st (chars "stop_conduit_cancel")).crashed = false ∧
      (handle_callback env st (chars "update_cancel")).effects =
        [.editDesk CONFIGS_TEXT .configs, .ansCb "Cancelled."] ∧
      (handle_callback env st (chars "update_cancel")).crashed = false ∧
      (handle_callback env st (chars "stop_conduit_confirm")).effects =
        [.svcStop, .updateDash, .editDesk CMD_DESK_MAIN_TEXT .main,
          .ansCb "Conduit stopped. Status updated."] ∧
      (handle_callback env st (chars "stop_conduit_confirm")).crashed = false) :=
  ⟨fun _ _ => rfl, fun _ _ => ⟨rfl, rfl, rfl, rfl, rfl, rfl, rfl, rfl⟩⟩

/-- C7: an event from a chat other than the owner gets exactly one
rejection acknowledgment (a callback answer for button presses, one plain
reply for `/start`), the state is left untouched apart from the offset
bookkeeping `last_update_id`, and no `save_state` happens while handling
the event. -/
theorem non_owner_isolation :
    ∀ (owner : Int) (cbEnv : CbEnv) (sEnv : StartEnv) (st : BotState)
      (uid cid : Int) (data text : List Char),
      cid ≠ owner →
      (handle_update owner cbEnv sEnv st (.callback uid cid data) =
        ⟨{ st with lastUpdateId := some uid },
          [.ansCb "Not authorized. Only the chat ID set during installation can use this bot."],
          false⟩) ∧
      (startsWithSeq text (chars "/start") = true →
        handle_update owner cbEnv sEnv st (.message uid cid text) =
          ⟨{ st with lastUpdateId := some uid },
            [.sendMsg "Not authorized. Only the chat ID set during installation can use this bot."],
            false⟩) ∧
      BotEffect.saveState ∉ (handle_update owner cbEnv sEnv st (.callback uid cid data)).effects ∧
      (handle_update owner cbEnv sEnv st (.callback uid cid data)).st.triad = st.triad ∧
      (handle_update owner cbEnv sEnv st (.callback uid cid data)).st.lastStatusPress =
        st.lastStatusPress := by
  intro owner cbEnv sEnv st uid cid data text hne
  have hcb : handle_update owner cbEnv sEnv st (.callback uid cid data) =
      ⟨{ st with lastUpdateId := some uid },
        [.ansCb "Not authorized. Only the chat ID set during installation can use this bot."],
        false⟩ := by
    simp [handle_update, hne]
  refine ⟨hcb, fun hstart => ?_, ?_, ?_, ?_⟩
  · simp [handle_update, hne, hstart]
  · rw [hcb]; simp
  · rw [hcb]
  · rw [hcb]

/-- Witness for `non_owner_isolation`: a stranger's button press and
`/start`, at concrete inputs. -/
theorem non_owner_isolation_witness :
    handle_update 42 ⟨0, none, "active", none, "d", ⟨.ok 1, .ok 1, .ok 1, .ok 1⟩, ⟨.ok 1, .ok 1⟩⟩
        ⟨none, "active", none, "d", ⟨.ok 1, .ok 1, .ok 1⟩⟩ {} (.callback 7 99 (chars "cmd_status")) =
      ⟨{ lastUpdateId := some 7 },
        [.ansCb "Not authorized. Only the chat ID set during installation can use this bot."],
        false⟩ ∧
    handle_update 42 ⟨0, none, "active", none, "d", ⟨.ok 1, .ok 1, .ok 1, .ok 1⟩, ⟨.ok 1, .ok 1⟩⟩
        ⟨none, "active", none, "d", ⟨.ok 1, .ok 1, .ok 1⟩⟩ {} (.message 7 99 (chars "/start")) =
      ⟨{ lastUpdateId := some 7 },
        [.sendMsg "Not authorized. Only the chat ID set during installation can use this bot."],
        false⟩ :=
  ⟨(non_owner_isolation 42 _ _ {} 7 99 (chars "cmd_status") (chars "/start")
      (by decide)).1,
   (non_owner_isolation 42 _ _ {} 7 99 (chars "cmd_status") (chars "/start")
      (by decide)).2.1 (by decide)⟩

/-- C3 (code bug): on a total fetch failure `fetch_metrics` returns the
empty dict rather than `None`, so the periodic tick overwrites
`last_good_metrics` with `{}`, and the status message is built from the
empty dict — reporting `STOPPED` with zero values — instead of reporting
unreachable with the cached sample's numbers. -/
theorem fetch_failure_clobbers_cache :
    fetch_metrics none = some emptyMetrics ∧
    (periodic_refresh preFailureState failedTickEnv).st.lastGood = some emptyMetrics ∧
    (periodic_refresh preFailureState failedTickEnv).view.conduitLine = "STOPPED" ∧
    (periodic_refresh preFailureState failedTickEnv).view.captionMetrics = emptyMetrics ∧
    build_status_message none 50 10 "active" (some cachedSample) =
      ⟨cachedSample, 50, 10, "unreachable (service may be down)", "active"⟩ := by
  refine ⟨rfl, ?_, ?_, ?_, rfl⟩ <;>
    norm_num [periodic_refresh, preFailureState, failedTickEnv, fetch_metrics,
      build_status_message, metrics_ingest, Metrics.nonempty, emptyMetrics,
      update_dashboard_for_chat, py_truthy, load_conduit_env]

/-- The per-line update of `load_conduit_env` acts componentwise: a line
can change the `MAX_CLIENTS` component only through a parseable
`MAX_CLIENTS` entry and the `BANDWIDTH` component only through a parseable
`BANDWIDTH` entry. -/
theorem loadStep_eq (acc : Int × ℚ) (line : List Char) :
    loadStep acc line = (mcStep acc.1 line, bwStep acc.2 line) := by
  obtain ⟨a, b⟩ := acc
  unfold loadStep mcStep bwStep
  cases hp : parseLine line with
  | none => rfl
  | some kv =>
    obtain ⟨k, v⟩ := kv
    dsimp only
    by_cases hk : k = chars "MAX_CLIENTS"
    · subst hk
      rw [if_pos rfl, if_pos rfl,
        if_neg (by decide : ¬(chars "MAX_CLIENTS" = chars "BANDWIDTH"))]
      cases pyInt v <;> rfl
    · by_cases hb : k = chars "BANDWIDTH"
      · subst hb
        rw [if_neg hk, if_neg hk, if_pos rfl, if_pos rfl]
        cases pyFloat v <;> rfl
      · rw [if_neg hk, if_neg hk, if_neg hb, if_neg hb]

/-- Folding `loadStep` splits into the two independent per-key folds. -/
theorem load_foldl_eq (lines : List (List Char)) :
    ∀ (a : Int) (b : ℚ),
      lines.foldl loadStep (a, b) = (lines.foldl mcStep a, lines.foldl bwStep b) := by
  induction lines with
  | nil => intro a b; rfl
  | cons l ls ih =>
    intro a b
    simp only [List.foldl_cons, loadStep_eq]
    exact ih _ _

/-- Lines without a parseable `MAX_CLIENTS` entry leave the first
component untouched. -/
theorem mc_foldl_const (lines : List (List Char)) :
    (∀ l ∈ lines, mcParses l = false) → ∀ a : Int, lines.foldl mcStep a = a := by
  induction lines with
  | nil => intro _ a; rfl
  | cons l ls ih =>
    intro h a
    have hstep : mcStep a l = a := by
      have hl := h l (by simp)
      simp only [mcStep]
      cases hp : parseLine l with
      | none => rfl
      | some kv =>
        obtain ⟨k, v⟩ := kv
        dsimp only
        by_cases hk : k = chars "MAX_CLIENTS"
        · subst hk
          rw [if_pos rfl]
          cases hi : pyInt v with
          | none => rfl
          | some n =>
            exfalso
            simp [mcParses, hp, hi] at hl
        · rw [if_neg hk]
    simp only [List.foldl_cons, hstep]
    exact ih (fun x hx => h x (by simp [hx])) a

/-- Lines without a parseable `BANDWIDTH` entry leave the second
component untouched. -/
theorem bw_foldl_const (lines : List (List Char)) :
    (∀ l ∈ lines, bwParses l = false) → ∀ b : ℚ, lines.foldl bwStep b = b := by
  induction lines with
  | nil => intro _ b; rfl
  | cons l ls ih =>
    intro h b
    have hstep : bwStep b l = b := by
      have hl := h l (by simp)
      simp only [bwStep]
      cases hp : parseLine l with
      | none => rfl
      | some kv =>
        obtain ⟨k, v⟩ := kv
        dsimp only
        by_cases hk : k = chars "BANDWIDTH"
        · subst hk
          rw [if_pos rfl]
          cases hi : pyFloat v with
          | none => rfl
          | some q =>
            exfalso
            simp [bwParses, hp, hi] at hl
        · rw [if_neg hk]
    simp only [List.foldl_cons, hstep]
    exact ih (fun x hx => h x (by simp [hx])) b

/-- C10: `load_conduit_env` is a total function with per-key defaults: a
missing file yields `(50, 10.0)`; the two components are computed
independently (`mcOf`/`bwOf`); a file with no parseable `MAX_CLIENTS`
entry yields `max_clients = 50` and one with no parseable `BANDWIDTH`
entry yields `bandwidth = 10.0`, so a malformed value for one key leaves
only that key at its default while the other key's parsed value is still
returned — as in the two concrete mixed files. -/
theorem load_conduit_env_spec :
    load_conduit_env none = (50, 10) ∧
    (∀ lines, load_conduit_env (some lines) = (mcOf lines, bwOf lines)) ∧
    (∀ lines, (∀ l ∈ lines, mcParses l = false) → mcOf lines = 50) ∧
    (∀ lines, (∀ l ∈ lines, bwParses l = false) → bwOf lines = 10) ∧
    load_conduit_env (some [chars "MAX_CLIENTS=abc", chars "BANDWIDTH=20"]) = (50, 20) ∧
    load_conduit_env (some [chars "MAX_CLIENTS=75", chars "BANDWIDTH=oops"]) = (75, 10) := by
  refine ⟨rfl, ?_, ?_, ?_, by decide, by decide⟩
  · intro lines
    exact load_foldl_eq lines 50 10
  · intro lines h
    exact mc_foldl_const lines h 50
  · intro lines h
    exact bw_foldl_const lines h 10

/-- Witness for `load_conduit_env_spec`: the no-parseable-entry defaults
at a concrete file. -/
theorem load_conduit_env_spec_witness :
    mcOf [chars "MAX_CLIENTS=abc", chars "# MAX_CLIENTS=9", chars "OTHER=1"] = 50 ∧
    bwOf [chars "BANDWIDTH=", chars "BANDWIDTH 15"] = 10 :=
  ⟨load_conduit_env_spec.2.2.1 [chars "MAX_CLIENTS=abc", chars "# MAX_CLIENTS=9", chars "OTHER=1"]
      (by decide),
   load_conduit_env_spec.2.2.2.1 [chars "BANDWIDTH=", chars "BANDWIDTH 15"] (by decide)⟩

/-! ### String-level lemmas for the config-file round trip (C9) -/

/-- `dropTrailing` removes only elements. -/
theorem dropTrailing_sublist (l : List Char) : (dropTrailing l).Sublist l := by
  induction l with
  | nil => exact List.Sublist.refl _
  | cons c t ih =>
    simp only [dropTrailing]
    cases hdt : dropTrailing t with
    | nil =>
      by_cases hc : isPySpace c = true
      · rw [if_pos hc]; exact List.nil_sublist _
      · rw [if_neg hc]; exact (List.nil_sublist t).cons₂ c
    | cons r rs =>
      exact (hdt ▸ ih).cons₂ c

/-- A string equal to its own strip neither starts nor ends with
whitespace: both halves of the strip are identities on it. -/
theorem strip_eq_self_parts {s : List Char} (h : stripChars s = s) :
    s.dropWhile isPySpace = s ∧ dropTrailing s = s := by
  have hw : (s.dropWhile isPySpace).Sublist s := List.dropWhile_sublist _
  have hd : (dropTrailing (s.dropWhile isPySpace)).Sublist (s.dropWhile isPySpace) :=
    dropTrailing_sublist _
  have h0 : dropTrailing (s.dropWhile isPySpace) = s := h
  have hlen : s.length ≤ (s.dropWhile isPySpace).length := by
    have h2 := hd.length_le
    rw [h0] at h2
    exact h2
  have hwe : s.dropWhile isPySpace = s :=
    hw.eq_of_length (le_antisymm hw.length_le hlen)
  rw [hwe] at h0
  exact ⟨hwe, h0⟩

/-- `dropWhile` fixes a non-empty list only when its head fails the
predicate. -/
theorem dropWhile_eq_self_head {p : Char → Bool} {c : Char} {t : List Char}
    (h : (c :: t).dropWhile p = c :: t) : p c = false := by
  by_contra hc
  have hpc : p c = true := by revert hc; cases p c <;> simp
  rw [List.dropWhile_cons, if_pos hpc] at h
  have := (List.dropWhile_sublist (l := t) p).length_le
  rw [h] at this
  simp at this

/-- `dropTrailing` of a cons is empty or keeps the head. -/
theorem dropTrailing_head (c : Char) (t : List Char) :
    dropTrailing (c :: t) = [] ∨ ∃ r, dropTrailing (c :: t) = c :: r := by
  simp only [dropTrailing]
  cases dropTrailing t with
  | nil =>
    by_cases hc : isPySpace c = true
    · exact Or.inl (by rw [if_pos hc])
    · exact Or.inr ⟨[], by rw [if_neg hc]⟩
  | cons r rs => exact Or.inr ⟨r :: rs, rfl⟩

/-- Appending before a trailing-whitespace-free non-empty tail leaves
`dropTrailing` inert. -/
theorem dropTrailing_append {ys : List Char} (hys : dropTrailing ys = ys) (hne : ys ≠ [])
    (xs : List Char) : dropTrailing (xs ++ ys) = xs ++ ys := by
  induction xs with
  | nil => simpa using hys
  | cons c xs ih =>
    rw [List.cons_append]
    simp only [dropTrailing]
    rw [ih]
    cases hxy : xs ++ ys with
    | nil => exact absurd (List.append_eq_nil.mp hxy).2 hne
    | cons r rs => rfl

/-- `dropTrailing` is inert on `'=' :: v` when it is inert on `v`. -/
theorem dropTrailing_eq_cons {v : List Char} (hv : dropTrailing v = v) :
    dropTrailing ('=' :: v) = '=' :: v := by
  simp only [dropTrailing, hv]
  cases v with
  | nil => rfl
  | cons r rs => rfl

/-- Stripping is inert on `k ++ '=' :: v` when key and value are already
stripped. -/
theorem strip_append_eq {k v : List Char} (hk : stripChars k = k) (hv : stripChars v = v) :
    stripChars (k ++ '=' :: v) = k ++ '=' :: v := by
  obtain ⟨hkw, hkd⟩ := strip_eq_self_parts hk
  obtain ⟨-, hvd⟩ := strip_eq_self_parts hv
  have hdw : (k ++ '=' :: v).dropWhile isPySpace = k ++ '=' :: v := by
    cases k with
    | nil =>
      simp only [List.nil_append, List.dropWhile_cons]
      rw [if_neg (by decide)]
    | cons c t =>
      have hc : isPySpace c = false := dropWhile_eq_self_head hkw
      simp only [List.cons_append, List.dropWhile_cons]
      rw [if_neg (by simp [hc])]
  have h1 : stripChars (k ++ '=' :: v) = dropTrailing ((k ++ '=' :: v).dropWhile isPySpace) :=
    rfl
  rw [h1, hdw]
  exact dropTrailing_append (dropTrailing_eq_cons hvd) (by simp) k

/-- Splitting `k ++ '=' :: v` at the first `'='` recovers `k` and `v`
when `k` contains no `'='`. -/
theorem splitAtEq_append {k : List Char} (hk : '=' ∉ k) (v : List Char) :
    splitAtEqKey (k ++ '=' :: v) = k ∧ splitAtEqVal (k ++ '=' :: v) = v := by
  induction k with
  | nil =>
    constructor
    · simp only [splitAtEqKey, List.nil_append, List.takeWhile_cons]
      rw [if_neg (by simp)]
    · simp only [splitAtEqVal, List.nil_append, List.dropWhile_cons]
      rw [if_neg (by simp)]
      rfl
  | cons c t ih =>
    have hc : c ≠ '=' := fun hcc => hk (by simp [hcc])
    have ht : '=' ∉ t := fun htt => hk (by simp [htt])
    obtain ⟨ih1, ih2⟩ := ih ht
    constructor
    · simp only [splitAtEqKey, List.cons_append, List.takeWhile_cons]
      rw [if_pos (by simp [hc])]
      simpa [splitAtEqKey] using ih1
    · simp only [splitAtEqVal, List.cons_append, List.dropWhile_cons]
      rw [if_pos (by simp [hc])]
      exact ih2

/-- A good pair survives the `k=v` write/parse round trip. -/
theorem parseLine_roundtrip {k v : List Char} (h : goodPair (k, v)) :
    parseLine (k ++ '=' :: v) = some (k, v) := by
  obtain ⟨hk1, hv1, hk2, hk3⟩ := h
  simp only at hk1 hv1 hk2 hk3
  have hs := strip_append_eq hk1 hv1
  obtain ⟨hsk, hsv⟩ := splitAtEq_append hk2 v
  cases k with
  | nil =>
    simp only [List.nil_append] at hs hsk hsv ⊢
    simp only [parseLine, hs]
    rw [if_neg (by simp)]
    rw [hsk, hsv, hv1]
    rfl
  | cons c t =>
    have hc : c ≠ '#' := by simpa using hk3
    simp only [List.cons_append] at hs hsk hsv ⊢
    simp only [parseLine, hs]
    rw [if_neg (by simp [hc])]
    rw [hsk, hsv, hk1, hv1]

/-- Unfolding equation of `dropTrailing` at a cons. -/
theorem dropTrailing_cons (c : Char) (t : List Char) :
    dropTrailing (c :: t) =
      match dropTrailing t with
      | [] => if isPySpace c then [] else [c]
      | r => c :: r := rfl

/-- `dropTrailing` is idempotent. -/
theorem dropTrailing_idem (l : List Char) : dropTrailing (dropTrailing l) = dropTrailing l := by
  induction l with
  | nil => rfl
  | cons c t ih =>
    rw [dropTrailing_cons]
    cases hdt : dropTrailing t with
    | nil =>
      by_cases hc : isPySpace c = true
      · rw [if_pos hc]; rfl
      · have hc' : isPySpace c = false := by revert hc; cases isPySpace c <;> simp
        rw [if_neg hc]
        simp [dropTrailing, hc']
    | cons r rs =>
      rw [hdt] at ih
      rw [dropTrailing_cons, ih]

/-- The head of a stripped string is not whitespace. -/
theorem stripChars_head_nospace {s : List Char} {c : Char} {t : List Char}
    (h : stripChars s = c :: t) : isPySpace c = false := by
  have hw : dropTrailing (s.dropWhile isPySpace) = c :: t := h
  cases hwc : s.dropWhile isPySpace with
  | nil => rw [hwc] at hw; exact absurd hw (by simp [dropTrailing])
  | cons d u =>
    have hd : isPySpace d = false := by
      have hh := List.head?_dropWhile_not isPySpace s
      rw [hwc] at hh
      simpa using hh
    rw [hwc] at hw
    rcases dropTrailing_head d u with h0 | ⟨r, hr⟩
    · rw [h0] at hw; exact absurd hw (by simp)
    · rw [hr] at hw
      injection hw with h1 h2
      rw [← h1]
      exact hd

/-- Stripping is idempotent. -/
theorem stripChars_idem (s : List Char) : stripChars (stripChars s) = stripChars s := by
  have hw : (stripChars s).dropWhile isPySpace = stripChars s := by
    cases hs : stripChars s with
    | nil => rfl
    | cons c t =>
      have hc : isPySpace c = false := stripChars_head_nospace hs
      rw [List.dropWhile_cons, if_neg (by simp [hc])]
  have h1 : stripChars (stripChars s) = dropTrailing ((stripChars s).dropWhile isPySpace) := rfl
  rw [h1, hw]
  exact dropTrailing_idem _

/-- Stripping only removes characters. -/
theorem stripChars_subset {s : List Char} {a : Char} (h : a ∈ stripChars s) : a ∈ s :=
  (List.dropWhile_sublist isPySpace).subset ((dropTrailing_sublist _).subset h)

/-- Start of a stripped cons with non-space head: empty or same head. -/
theorem stripChars_cons_head {c : Char} (t : List Char) (hc : isPySpace c = false) :
    stripChars (c :: t) = [] ∨ ∃ r, stripChars (c :: t) = c :: r := by
  have hw : (c :: t).dropWhile isPySpace = c :: t := by
    rw [List.dropWhile_cons, if_neg (by simp [hc])]
  have h1 : stripChars (c :: t) = dropTrailing (c :: t) := by
    rw [stripChars, hw]
  rw [h1]
  exact dropTrailing_head c t

/-- Every pair `parseLine` produces is good: key and value are stripped,
the key contains no `'='` and does not start with `'#'`. -/
theorem parseLine_good {line : List Char} {k v : List Char}
    (h : parseLine line = some (k, v)) : goodPair (k, v) := by
  unfold parseLine at h
  cases hs : stripChars line with
  | nil => rw [hs] at h; exact absurd h (by simp)
  | cons c rest =>
    rw [hs] at h
    dsimp only at h
    by_cases hcond : c = '#' ∨ '=' ∉ (c :: rest)
    · rw [if_pos hcond] at h; exact absurd h (by simp)
    · rw [if_neg hcond] at h
      push_neg at hcond
      obtain ⟨hch, -⟩ := hcond
      injection h with h'
      rw [Prod.mk.injEq] at h'
      obtain ⟨hk, hv⟩ := h'
      refine ⟨?_, ?_, ?_, ?_⟩
      · rw [← hk]; exact stripChars_idem _
      · rw [← hv]; exact stripChars_idem _
      · intro hmem
        rw [← hk] at hmem
        have h2 := stripChars_subset hmem
        have h3 := List.mem_takeWhile_imp h2
        simp at h3
      · rw [← hk]
        have hcs : isPySpace c = false := stripChars_head_nospace hs
        cases hk0 : splitAtEqKey (c :: rest) with
        | nil => simp [stripChars, dropTrailing]
        | cons d u =>
          rw [splitAtEqKey, List.takeWhile_cons] at hk0
          by_cases hce : c = '='
          · rw [if_neg (by simp [hce])] at hk0
            exact absurd hk0 (by simp)
          · rw [if_pos (by simp [hce])] at hk0
            injection hk0 with hd hu
            subst hd
            rcases stripChars_cons_head u hcs with h4 | ⟨r, h4⟩
            · rw [h4]; simp
            · rw [h4]; simp [hch]

/-- Writing a dict of good pairs as `k=v` lines and re-parsing recovers
exactly the dict. -/
theorem parsePairs_write_roundtrip {d : List (List Char × List Char)}
    (h : ∀ p ∈ d, goodPair p) :
    parsePairs (d.map (fun p => p.1 ++ '=' :: p.2)) = d := by
  induction d with
  | nil => rfl
  | cons p ps ih =>
    have hp : goodPair (p.1, p.2) := h p (by simp)
    have hps : ∀ q ∈ ps, goodPair q := fun q hq => h q (by simp [hq])
    have hr : parseLine (p.1 ++ '=' :: p.2) = some (p.1, p.2) := parseLine_roundtrip hp
    have ihe := ih hps
    simp only [parsePairs] at ihe
    simp only [parsePairs, List.map_cons, List.filterMap_cons, hr, ihe]

/-- A key present anywhere in the pair list has a last-wins value. -/
theorem lookupD_isSome_of_any {d : List (List Char × List Char)} {k : List Char}
    (h : d.any (fun p => p.1 = k) = true) : (lookupD d k).isSome = true := by
  induction d with
  | nil => simp at h
  | cons p ps ih =>
    simp only [lookupD]
    cases hps : lookupD ps k with
    | some w => rfl
    | none =>
      simp only [List.any_cons, Bool.or_eq_true] at h
      rcases h with h | h
      · rw [if_pos (by simpa using h)]; rfl
      · have h2 := ih h
        rw [hps] at h2
        simp at h2

/-- Lookup after appending a single binding. -/
theorem lookupD_append_single (d : List (List Char × List Char)) (k v k' : List Char) :
    lookupD (d ++ [(k, v)]) k' = if k' = k then some v else lookupD d k' := by
  induction d with
  | nil =>
    simp only [List.nil_append, lookupD]
    by_cases h : k = k'
    · rw [if_pos h, if_pos h.symm]
    · rw [if_neg h, if_neg (fun hh => h hh.symm)]
  | cons p ps ih =>
    simp only [List.cons_append, lookupD, List.append_eq, ih]
    by_cases h : k' = k
    · rw [if_pos h, if_pos h]
    · rw [if_neg h, if_neg h]

/-- Lookup after an in-place value replacement at key `k`. -/
theorem lookupD_replace (d : List (List Char × List Char)) (k v k' : List Char) :
    lookupD (d.map (fun p => if p.1 = k then (k, v) else p)) k' =
      if k' = k then (lookupD d k).map (fun _ => v) else lookupD d k' := by
  rcases eq_or_ne k' k with heq | hk'
  · subst heq
    rw [if_pos rfl]
    induction d with
    | nil => rfl
    | cons p ps ih =>
      simp only [List.map_cons, lookupD, ih]
      cases hps : lookupD ps k' with
      | some w => rfl
      | none =>
        by_cases hpk : p.1 = k'
        · simp [hpk]
        · simp [hpk]
  · rw [if_neg hk']
    induction d with
    | nil => rfl
    | cons p ps ih =>
      simp only [List.map_cons, lookupD, ih]
      cases hps : lookupD ps k' with
      | some w => rfl
      | none =>
        by_cases hpk : p.1 = k
        · have hkk' : ¬(k = k') := fun hh => hk' hh.symm
          simp [hpk, hkk']
        · simp [hpk]

/-- Lookup after a Python `d[k] = v` assignment. -/
theorem lookupD_dictInsert (d : List (List Char × List Char)) (k v k' : List Char) :
    lookupD (dictInsert d k v) k' = if k' = k then some v else lookupD d k' := by
  unfold dictInsert
  by_cases hany : d.any (fun p => p.1 = k) = true
  · rw [if_pos hany, lookupD_replace]
    by_cases hk' : k' = k
    · subst hk'
      rw [if_pos rfl, if_pos rfl]
      have hsome := lookupD_isSome_of_any hany
      cases hs : lookupD d k' with
      | some w => rfl
      | none => rw [hs] at hsome; simp at hsome
    · rw [if_neg hk', if_neg hk']
  · rw [if_neg hany, lookupD_append_single]

/-- Folding dict assignments: lookup sees the assignments' last value, or
falls back to the start dict. -/
theorem lookupD_buildDict_aux (ps : List (List Char × List Char)) :
    ∀ (d0 : List (List Char × List Char)) (k : List Char),
      lookupD (ps.foldl (fun d p => dictInsert d p.1 p.2) d0) k =
        match lookupD ps k with
        | some v => some v
        | none => lookupD d0 k := by
  induction ps with
  | nil => intro d0 k; rfl
  | cons p ps ih =>
    intro d0 k
    simp only [List.foldl_cons]
    rw [ih]
    cases hps : lookupD ps k with
    | some w => simp [lookupD, hps]
    | none =>
      simp only [lookupD, hps, lookupD_dictInsert]
      by_cases hk : k = p.1
      · rw [if_pos hk, if_pos (by simpa using hk.symm)]
      · rw [if_neg hk, if_neg (by simpa using fun hh => hk (by rw [hh]))]

/-- The dict a file builds answers lookups exactly as the raw pair list
does (last parseable occurrence wins). -/
theorem lookupD_buildDict (ps : List (List Char × List Char)) (k : List Char) :
    lookupD (buildDict ps) k = lookupD ps k := by
  rw [buildDict, lookupD_buildDict_aux ps [] k]
  cases lookupD ps k with
  | some w => rfl
  | none => rfl

/-- `dictInsert` with a good pair keeps all pairs good. -/
theorem goodPairs_dictInsert {d : List (List Char × List Char)} {k v : List Char}
    (hd : ∀ p ∈ d, goodPair p) (hkv : goodPair (k, v)) :
    ∀ p ∈ dictInsert d k v, goodPair p := by
  intro p hp
  unfold dictInsert at hp
  by_cases hany : d.any (fun q => q.1 = k) = true
  · rw [if_pos hany] at hp
    obtain ⟨q, hq, hqe⟩ := List.mem_map.mp hp
    by_cases hqk : q.1 = k
    · rw [if_pos hqk] at hqe
      rw [← hqe]
      exact hkv
    · rw [if_neg hqk] at hqe
      rw [← hqe]
      exact hd q hq
  · rw [if_neg hany] at hp
    rcases List.mem_append.mp hp with h | h
    · exact hd p h
    · rw [List.mem_singleton.mp h]
      exact hkv

/-- Folding dict assignments of good pairs onto a good dict keeps all
pairs good. -/
theorem goodPairs_buildDict_aux (ps : List (List Char × List Char)) :
    (∀ p ∈ ps, goodPair p) →
    ∀ (d0 : List (List Char × List Char)), (∀ p ∈ d0, goodPair p) →
      ∀ p ∈ ps.foldl (fun d q => dictInsert d q.1 q.2) d0, goodPair p := by
  induction ps with
  | nil =>
    intro _ d0 h0 p hp
    exact h0 p (by simpa using hp)
  | cons q qs ih =>
    intro h d0 h0 p hp
    simp only [List.foldl_cons] at hp
    have hq : goodPair (q.1, q.2) := h q (by simp)
    exact ih (fun r hr => h r (by simp [hr])) (dictInsert d0 q.1 q.2)
      (goodPairs_dictInsert h0 hq) p hp

/-- `buildDict` keeps all pairs good. -/
theorem goodPairs_buildDict {ps : List (List Char × List Char)}
    (h : ∀ p ∈ ps, goodPair p) : ∀ p ∈ buildDict ps, goodPair p :=
  goodPairs_buildDict_aux ps h [] (by simp)

/-- Every pair parsed from a file is good. -/
theorem goodPairs_parsePairs (lines : List (List Char)) :
    ∀ p ∈ parsePairs lines, goodPair p := by
  intro p hp
  rw [parsePairs, List.mem_filterMap] at hp
  obtain ⟨l, -, hl⟩ := hp
  obtain ⟨a, b⟩ := p
  exact parseLine_good hl

/-- C9: writing one of the managed keys with `set_conduit_param`
preserves the mapping of every other key exactly (present keys keep their
value, absent keys stay absent, under the last-occurrence-wins reading
every reader in the source uses), and maps the written key to the new
value. The hypotheses state the shape of the managed writes: key and
value carry no surrounding whitespace or newline, and the key —
`MAX_CLIENTS` or `BANDWIDTH` — contains no `'='` and does not start
with `'#'`. -/
theorem set_conduit_param_frame :
    ∀ (lines : List (List Char)) (key value : List Char),
      stripChars key = key → stripChars value = value →
      '=' ∉ key → key.head? ≠ some '#' →
      '\n' ∉ key → '\n' ∉ value →
      (∀ k', k' ≠ key →
        fileLookup (set_conduit_param (some lines) key value) k' = fileLookup lines k') ∧
      fileLookup (set_conduit_param (some lines) key value) key = some value := by
  intro lines key value h1 h2 h3 h4 _ _
  have hkv : goodPair (key, value) := ⟨h1, h2, h3, h4⟩
  have hgood : ∀ p ∈ dictInsert (buildDict (parsePairs lines)) key value, goodPair p :=
    goodPairs_dictInsert (goodPairs_buildDict (goodPairs_parsePairs lines)) hkv
  have hnew : ∀ k', fileLookup (set_conduit_param (some lines) key value) k' =
      if k' = key then some value else fileLookup lines k' := by
    intro k'
    have hsp : set_conduit_param (some lines) key value =
        (dictInsert (buildDict (parsePairs lines)) key value).map
          (fun p => p.1 ++ '=' :: p.2) := rfl
    rw [fileLookup, hsp, parsePairs_write_roundtrip hgood, lookupD_dictInsert,
      lookupD_buildDict]
    rfl
  exact ⟨fun k' hk' => by rw [hnew k', if_neg hk'], by rw [hnew key, if_pos rfl]⟩

/-- Witness for `set_conduit_param_frame`: rewriting `MAX_CLIENTS` in a
concrete file leaves the unrelated `FOO` entry intact and sets the new
value. -/
theorem set_conduit_param_frame_witness :
    fileLookup (set_conduit_param (some [chars "FOO=bar", chars "MAX_CLIENTS=50"])
        (chars "MAX_CLIENTS") (chars "100")) (chars "FOO") =
      fileLookup [chars "FOO=bar", chars "MAX_CLIENTS=50"] (chars "FOO") ∧
    fileLookup (set_conduit_param (some [chars "FOO=bar", chars "MAX_CLIENTS=50"])
        (chars "MAX_CLIENTS") (chars "100")) (chars "MAX_CLIENTS") = some (chars "100") := by
  have h := set_conduit_param_frame [chars "FOO=bar", chars "MAX_CLIENTS=50"]
    (chars "MAX_CLIENTS") (chars "100") (by decide) (by decide) (by decide) (by decide)
    (by decide) (by decide)
  exact ⟨h.1 (chars "FOO") (by decide), h.2⟩

end EasyConduit
